import Mathlib

/-!
Verification of the traffic-backend ingest/aggregate/fan-out pipeline
(backend/types.go, backend/redis.go, backend/websocket.go).

The Go code is shallowly embedded: the shared `latest` snapshot and the
incoming pub/sub message become Lean structures; the inline merge logic of
`startRedisSubscriber` (redis.go lines 196-211) becomes the pure function
`mergeLatest`; the per-message body of the subscriber loop becomes
`processMessage`; the startup reconstruction `initializeLatestData`
(redis.go lines 51-151) becomes `initLatestData` over an environment record
capturing the outcomes of the external Redis calls; the WebSocket dispatch
cycle of `handleMessages` (websocket.go lines 17-33) becomes
`handleMessagesCycle`; the buffered Go channel `broadcast` (types.go line 38)
becomes a bounded-queue transition system.

Go `int` fields are modelled as `Int`; the spec stipulates counts stay within
the host's native integer range, so 64-bit wraparound is not modelled.
-/

namespace TrafficBackend

/-- One opaque packet record: Go `interface{}` values here are maps from
field names to values (redis.go builds them as `map[string]interface{}`),
modelled as association lists of string pairs. -/
abbrev Packet := List (String × String)

/-- Embeds `trafficMessage` (types.go lines 10-14): the incoming pub/sub
message, with JSON fields `packet_count`, `timestamp`, `packets`. -/
structure trafficMessage where
  PacketCount : Int
  Timestamp : Int
  Packets : List Packet
deriving DecidableEq

/-- Embeds `latestData` (types.go lines 17-21): the accumulated latest
snapshot held in the global `latest` variable. -/
structure latestData where
  Timestamp : Int
  PacketCount : Int
  Packets : List Packet
deriving DecidableEq

/-- Embeds `initializeEmptyLatest` (redis.go lines 154-163): the empty
startup snapshot `timestamp=0, packet_count=0, packets=[]`. -/
def initEmptyLatest : latestData :=
  { Timestamp := 0, PacketCount := 0, Packets := [] }

/-- Embeds the merge step of `startRedisSubscriber` (redis.go lines 196-211):
if the payload's timestamp equals the current one, accumulate the count and
append the packets; otherwise replace the whole snapshot with the payload's
fields verbatim. -/
def mergeLatest (cur : latestData) (payload : trafficMessage) : latestData :=
  if payload.Timestamp = cur.Timestamp then
    { cur with
        PacketCount := cur.PacketCount + payload.PacketCount,
        Packets := cur.Packets ++ payload.Packets }
  else
    { Timestamp := payload.Timestamp,
      PacketCount := payload.PacketCount,
      Packets := payload.Packets }

theorem mergeLatest_timestamp (cur : latestData) (payload : trafficMessage) :
    (mergeLatest cur payload).Timestamp = payload.Timestamp := by
  unfold mergeLatest
  by_cases h : payload.Timestamp = cur.Timestamp <;> simp [h]

theorem mergeLatest_empty (payload : trafficMessage) :
    mergeLatest initEmptyLatest payload =
      { Timestamp := payload.Timestamp,
        PacketCount := payload.PacketCount,
        Packets := payload.Packets } := by
  unfold mergeLatest initEmptyLatest
  by_cases h : payload.Timestamp = 0 <;> simp [h]

/-- Claim C1: merging a message whose timestamp equals the current
snapshot's accumulates — same timestamp, counts added, packets appended in
order — and consequently merging two equal-timestamp messages M1 then M2
onto the empty startup snapshot yields count `M1.PacketCount + M2.PacketCount`
and packets `M1.Packets ++ M2.Packets`. -/
theorem merge_accumulate_law (cur : latestData) (payload m1 m2 : trafficMessage)
    (h : payload.Timestamp = cur.Timestamp) (h12 : m2.Timestamp = m1.Timestamp) :
    mergeLatest cur payload =
      { Timestamp := cur.Timestamp,
        PacketCount := cur.PacketCount + payload.PacketCount,
        Packets := cur.Packets ++ payload.Packets } ∧
    mergeLatest (mergeLatest initEmptyLatest m1) m2 =
      { Timestamp := m1.Timestamp,
        PacketCount := m1.PacketCount + m2.PacketCount,
        Packets := m1.Packets ++ m2.Packets } := by
  constructor
  · unfold mergeLatest
    simp [h]
  · rw [mergeLatest_empty]
    unfold mergeLatest
    simp [h12]

/-- Witness for C1 at the spec's own scenario: merging
`(timestamp 5, count 3, [e1,e2,e3])` then `(timestamp 5, count 2, [e4,e5])`
onto the empty store yields `(timestamp 5, count 5, [e1,e2,e3,e4,e5])`. -/
theorem merge_accumulate_law_witness :
    (5 : Int) = 5 ∧ (5 : Int) = 5 ∧
    mergeLatest
        (mergeLatest initEmptyLatest ⟨3, 5, [[("p", "1")], [("p", "2")], [("p", "3")]]⟩)
        ⟨2, 5, [[("p", "4")], [("p", "5")]]⟩ =
      { Timestamp := 5, PacketCount := 5,
        Packets := [[("p", "1")], [("p", "2")], [("p", "3")], [("p", "4")], [("p", "5")]] } :=
  ⟨rfl, rfl,
    (merge_accumulate_law ⟨5, 3, [[("p", "1")]]⟩ ⟨1, 5, [[("q", "0")]]⟩
        ⟨3, 5, [[("p", "1")], [("p", "2")], [("p", "3")]]⟩
        ⟨2, 5, [[("p", "4")], [("p", "5")]]⟩ rfl rfl).2⟩

/-- Claim C2: merging a message with any differing timestamp — including a
numerically smaller one — replaces the whole snapshot with the message's
fields verbatim; consequently merging M1 then M2 with distinct timestamps
yields exactly the snapshot that merging M2 alone onto the empty startup
snapshot would produce. -/
theorem merge_replace_law (cur cur2 : latestData) (payload m1 m2 : trafficMessage)
    (h : payload.Timestamp ≠ cur.Timestamp) (h12 : m2.Timestamp ≠ m1.Timestamp) :
    mergeLatest cur payload =
      { Timestamp := payload.Timestamp,
        PacketCount := payload.PacketCount,
        Packets := payload.Packets } ∧
    mergeLatest (mergeLatest cur2 m1) m2 = mergeLatest initEmptyLatest m2 := by
  constructor
  · unfold mergeLatest
    simp [h]
  · rw [mergeLatest_empty]
    have ht : (mergeLatest cur2 m1).Timestamp = m1.Timestamp := mergeLatest_timestamp cur2 m1
    generalize hS : mergeLatest cur2 m1 = S at ht ⊢
    unfold mergeLatest
    rw [ht]
    simp [h12]

/-- Witness for C2 at the spec's own scenario: merging a timestamp-5 message
and then a timestamp-1 message (smaller!) yields the timestamp-1 message's
snapshot verbatim. -/
theorem merge_replace_law_witness :
    ((1 : Int) ≠ 5) ∧
    mergeLatest (mergeLatest initEmptyLatest ⟨3, 5, [[("p", "1")]]⟩) ⟨1, 1, [[("e", "9")]]⟩ =
      mergeLatest initEmptyLatest ⟨1, 1, [[("e", "9")]]⟩ :=
  ⟨by decide,
    (merge_replace_law ⟨7, 2, [[("x", "0")]]⟩ initEmptyLatest ⟨4, 1, [[("y", "0")]]⟩
        ⟨3, 5, [[("p", "1")]]⟩ ⟨1, 1, [[("e", "9")]]⟩ (by decide) (by decide)).2⟩

/-- Claim C3: the count/length consistency invariant is preserved by the
merge: if the current snapshot's `PacketCount` equals the length of its
`Packets` and likewise for the incoming message, then the merged snapshot's
`PacketCount` equals the length of its `Packets`; the empty startup snapshot
satisfies the invariant. -/
theorem merge_preserves_count_invariant (cur : latestData) (payload : trafficMessage)
    (hc : cur.PacketCount = (cur.Packets.length : Int))
    (hp : payload.PacketCount = (payload.Packets.length : Int)) :
    (mergeLatest cur payload).PacketCount =
      ((mergeLatest cur payload).Packets.length : Int) ∧
    initEmptyLatest.PacketCount = (initEmptyLatest.Packets.length : Int) := by
  refine ⟨?_, rfl⟩
  unfold mergeLatest
  by_cases h : payload.Timestamp = cur.Timestamp <;>
    simp [h, hc, hp]

/-- Witness for C3: a concrete consistent snapshot and message stay
consistent after the merge. -/
theorem merge_preserves_count_invariant_witness :
    ((2 : Int) = ([[("a", "1")], [("a", "2")]] : List Packet).length) ∧
    ((1 : Int) = ([[("b", "1")]] : List Packet).length) ∧
    (mergeLatest ⟨5, 2, [[("a", "1")], [("a", "2")]]⟩ ⟨1, 5, [[("b", "1")]]⟩).PacketCount =
      ((mergeLatest ⟨5, 2, [[("a", "1")], [("a", "2")]]⟩ ⟨1, 5, [[("b", "1")]]⟩).Packets.length : Int) :=
  ⟨by decide, by decide,
    (merge_preserves_count_invariant ⟨5, 2, [[("a", "1")], [("a", "2")]]⟩
        ⟨1, 5, [[("b", "1")]]⟩ (by decide) (by decide)).1⟩

/-- State touched by the subscriber loop of `startRedisSubscriber`: the
fan-out queue fed through the `broadcast` channel (types.go line 38) and the
shared `latest` snapshot (types.go line 26). -/
structure ingestState where
  broadcastQueue : List String
  latest : latestData
deriving DecidableEq

/-- Embeds the body of the subscriber loop of `startRedisSubscriber`
(redis.go lines 183-212) for one received message: first the raw payload is
unconditionally sent to the broadcast channel (line 185), then it is
unmarshalled (line 189); on decode failure the loop continues with the state
otherwise unchanged (line 191), on success the snapshot is merged
(lines 196-211). The unmarshalling step `json.Unmarshal` is external library
code, abstracted as a `parse` function returning `none` on decode error. -/
def processMessage (parse : String → Option trafficMessage)
    (st : ingestState) (raw : String) : ingestState :=
  let st1 : ingestState := { st with broadcastQueue := st.broadcastQueue ++ [raw] }
  match parse raw with
  | none => st1
  | some payload => { st1 with latest := mergeLatest st1.latest payload }

/-- Embeds the `for msg := range ch` iteration of `startRedisSubscriber`
(redis.go line 183) over a finite prefix of the delivered messages. -/
def processMessages (parse : String → Option trafficMessage)
    (st : ingestState) : List String → ingestState
  | [] => st
  | raw :: rest => processMessages parse (processMessage parse st raw) rest

/-- Embeds `startRedisSubscriber` (redis.go lines 167-213) as a run function:
`subReceive` is the outcome of the subscription-confirming `pubsub.Receive`
(line 172), `msgs` the messages the channel would deliver. On a receive
error the function returns at line 175 after `errorLog` (the `Bool` in the
result records that the error log was emitted) without touching the state;
otherwise every delivered message is processed. -/
def startRedisSubscriberRun (subReceive : Except String Unit)
    (parse : String → Option trafficMessage) (msgs : List String)
    (st : ingestState) : ingestState × Bool :=
  match subReceive with
  | Except.error _ => (st, true)
  | Except.ok _ => (processMessages parse st msgs, false)

/-- Claim C4: for every received payload the raw string is enqueued to the
fan-out queue before parsing is attempted, so it reaches the queue whatever
the parse outcome; when the parse fails the snapshot is left completely
unchanged and the only effect is the enqueue; and the loop then continues
with the next message. -/
theorem parse_failure_forwarding (parse : String → Option trafficMessage)
    (st : ingestState) (raw : String) (rest : List String)
    (hfail : parse raw = none) :
    (processMessage parse st raw).broadcastQueue = st.broadcastQueue ++ [raw] ∧
    processMessage parse st raw = { st with broadcastQueue := st.broadcastQueue ++ [raw] } ∧
    (processMessage parse st raw).latest = st.latest ∧
    processMessages parse st (raw :: rest) =
      processMessages parse (processMessage parse st raw) rest := by
  refine ⟨?_, ?_, ?_, rfl⟩
  · unfold processMessage
    cases hp : parse raw <;> simp
  · unfold processMessage
    simp [hfail]
  · unfold processMessage
    simp [hfail]

/-- Witness for C4: a parser rejecting everything leaves a concrete state's
snapshot untouched while the payload still reaches the queue. -/
theorem parse_failure_forwarding_witness :
    ((fun _ : String => (none : Option trafficMessage)) "not json" = none) ∧
    processMessage (fun _ => none) ⟨["old"], ⟨5, 1, [[("a", "1")]]⟩⟩ "not json" =
      ⟨["old", "not json"], ⟨5, 1, [[("a", "1")]]⟩⟩ :=
  ⟨rfl,
    (parse_failure_forwarding (fun _ => none) ⟨["old"], ⟨5, 1, [[("a", "1")]]⟩⟩
        "not json" [] rfl).2.1⟩

/-- Claim C8: when the subscription is not confirmed (`pubsub.Receive`
errors), the ingest loop terminates immediately with the error logged, and
no message is ever enqueued or merged — the returned state is exactly the
initial one whatever messages were pending — while the function returns
normally (the rest of the process keeps running). -/
theorem subscribe_failure_fatal (e : String)
    (parse : String → Option trafficMessage) (msgs : List String)
    (st : ingestState) :
    startRedisSubscriberRun (Except.error e) parse msgs st = (st, true) := by
  rfl

/-- The fields of a well-formed JSON object targeted at `trafficMessage`
(types.go lines 10-14): each of the tagged fields `packet_count`,
`timestamp`, `packets` may be present or absent. -/
structure rawTrafficFields where
  packet_count : Option Int
  timestamp : Option Int
  packets : Option (List Packet)
deriving DecidableEq

/-- Embeds the behaviour of `json.Unmarshal` (redis.go line 189) into the
`trafficMessage` struct per Go encoding/json semantics: an absent field
leaves the struct field at its Go zero value (`0` for `int`, `nil` ≈ `[]`
for a slice); no presence or count/length-consistency validation is
performed by the struct definition (types.go lines 10-14). -/
def unmarshalTraffic (j : rawTrafficFields) : trafficMessage :=
  { PacketCount := j.packet_count.getD 0,
    Timestamp := j.timestamp.getD 0,
    Packets := j.packets.getD [] }

/-- Claim C10: decoding validates neither field presence nor count/length
consistency — the object with `packet_count` 2 and `timestamp` 7 but no
`packets` field decodes successfully to a message with 2 claimed and 0
actual packets, and merging that message into the empty snapshot produces a
snapshot whose `PacketCount` differs from the length of its `Packets`. -/
theorem unmarshal_no_validation :
    unmarshalTraffic ⟨some 2, some 7, none⟩ = ⟨2, 7, []⟩ ∧
    (mergeLatest initEmptyLatest (unmarshalTraffic ⟨some 2, some 7, none⟩)).PacketCount ≠
      ((mergeLatest initEmptyLatest (unmarshalTraffic ⟨some 2, some 7, none⟩)).Packets.length : Int) := by
  refine ⟨rfl, ?_⟩
  rw [mergeLatest_empty]
  decide

/-- The delivery registry: the key set of the `clients` map
(types.go line 32), listed in some iteration order; Go map keys are unique,
which the dispatch theorems assume as `Nodup`. -/
abbrev registry (γ : Type) := List γ

/-- Embeds `delete(clients, conn)` (websocket.go lines 27 and 59): removing
a key from the `clients` map. -/
def unregisterClient {γ : Type} [DecidableEq γ] (cs : registry γ) (c : γ) : registry γ :=
  cs.filter (fun x => x ≠ c)

/-- Embeds one dispatch cycle of `handleMessages` (websocket.go lines 19-31):
iterate over every currently registered client, attempt the send
(`client.WriteMessage`), and delete from the registry each client whose send
fails. `sendOk c = true` means the write to `c` returned no error. Returns
the list of clients that received the payload and the registry after the
cycle. -/
def handleMessagesCycle {γ : Type} (sendOk : γ → Bool) :
    registry γ → registry γ × registry γ
  | [] => ([], [])
  | c :: rest =>
    let p := handleMessagesCycle sendOk rest
    if sendOk c then (c :: p.1, c :: p.2) else (p.1, p.2)

theorem handleMessagesCycle_eq_filter {γ : Type} (sendOk : γ → Bool)
    (cs : registry γ) :
    handleMessagesCycle sendOk cs = (cs.filter sendOk, cs.filter sendOk) := by
  induction cs with
  | nil => rfl
  | cons c rest ih =>
    unfold handleMessagesCycle
    rw [ih]
    by_cases h : sendOk c <;> simp [h, List.filter_cons]

/-- Claim C9: unregistering is idempotent — removing a target that is not a
member leaves the registry unchanged, and removing the same target twice has
the same effect as removing it once. -/
theorem unregister_idempotent {γ : Type} [DecidableEq γ]
    (cs : registry γ) (c : γ) (hnm : c ∉ cs) :
    unregisterClient cs c = cs ∧
    unregisterClient (unregisterClient cs c) c = unregisterClient cs c := by
  constructor
  · unfold unregisterClient
    apply List.filter_eq_self.mpr
    intro x hx
    simp only [ne_eq, decide_eq_true_eq]
    intro hxc
    exact hnm (hxc ▸ hx)
  · unfold unregisterClient
    rw [List.filter_filter]
    apply List.filter_congr
    intro x _
    by_cases h : x = c <;> simp [h]

/-- Witness for C9: removing the absent client 3 from the registry [1, 2]
is a no-op, and a second removal of client 2 changes nothing more. -/
theorem unregister_idempotent_witness :
    (3 ∉ [1, 2]) ∧ unregisterClient [1, 2] 3 = [1, 2] ∧
    unregisterClient (unregisterClient [1, 2] 3) 3 = unregisterClient [1, 2] 3 :=
  ⟨by decide, (unregister_idempotent [1, 2] 3 (by decide)).1,
    (unregister_idempotent [1, 2] 3 (by decide)).2⟩

/-- Claim C5: in one dispatch cycle over a duplicate-free registry, every
target whose send succeeds receives the payload exactly once, a target whose
send fails is removed from the registry within the same cycle and its
failure does not prevent delivery to the others, and no subsequent cycle —
whatever its send outcomes — ever attempts delivery to the removed target. -/
theorem dispatch_completeness_under_failure {γ : Type} [DecidableEq γ]
    (sendOk : γ → Bool) (cs : registry γ) (b : γ)
    (hnd : cs.Nodup) (hb : sendOk b = false) :
    (∀ c ∈ cs, sendOk c = true → (handleMessagesCycle sendOk cs).1.count c = 1) ∧
    b ∉ (handleMessagesCycle sendOk cs).2 ∧
    (∀ sendOk2 : γ → Bool,
      b ∉ (handleMessagesCycle sendOk2 (handleMessagesCycle sendOk cs).2).1) := by
  rw [handleMessagesCycle_eq_filter]
  have hbf : b ∉ cs.filter sendOk := by
    intro hmem
    rw [List.mem_filter] at hmem
    rw [hb] at hmem
    exact Bool.false_ne_true hmem.2
  refine ⟨?_, hbf, ?_⟩
  · intro c hc hok
    have hmem : c ∈ cs.filter sendOk := List.mem_filter.mpr ⟨hc, hok⟩
    exact List.count_eq_one_of_mem (hnd.filter sendOk) hmem
  · intro sendOk2
    rw [handleMessagesCycle_eq_filter]
    intro hmem
    exact hbf (List.mem_filter.mp hmem).1

/-- Witness for C5 at the spec's own scenario: registry {A, B, C} = [1, 2, 3]
where the send to 2 fails — 1 and 3 each receive the payload once, 2 is gone
from the registry, and a later cycle with every send succeeding still never
reaches 2. -/
theorem dispatch_completeness_under_failure_witness :
    ([1, 2, 3] : List Nat).Nodup ∧ ((fun c => c ≠ 2) : Nat → Bool) 2 = false ∧
    (handleMessagesCycle (fun c => c ≠ 2) [1, 2, 3]).1.count 1 = 1 ∧
    (2 : Nat) ∉ (handleMessagesCycle (fun c => c ≠ 2) [1, 2, 3]).2 ∧
    (2 : Nat) ∉ (handleMessagesCycle (fun _ => true)
      (handleMessagesCycle (fun c => c ≠ 2) [1, 2, 3]).2).1 := by
  have h := dispatch_completeness_under_failure
    (fun c => c ≠ 2) [1, 2, 3] 2 (by decide) (by decide)
  exact ⟨by decide, by decide, h.1 1 (by decide) (by decide), h.2.1, h.2.2 (fun _ => true)⟩

/-- Digit-run parser underlying the `fmt.Sscanf` model: reads the leading
run of decimal digits, failing when there is none. -/
def parseDigits (cs : List Char) : Option Nat :=
  let ds := cs.takeWhile (fun c => c.isDigit)
  if ds.isEmpty then none
  else some (ds.foldl (fun a c => a * 10 + (c.toNat - 48)) 0)

/-- Embeds `fmt.Sscanf(s, "%d", &timestamp)` (redis.go line 104): skip
leading spaces, accept an optional sign followed by at least one decimal
digit, ignore trailing input; `none` models `err != nil || n != 1`. -/
def parseSscanfInt (s : String) : Option Int :=
  match s.toList.dropWhile (fun c => c = ' ') with
  | '-' :: rest => (parseDigits rest).map (fun n => -(n : Int))
  | '+' :: rest => (parseDigits rest).map (fun n => (n : Int))
  | rest => (parseDigits rest).map (fun n => (n : Int))

/-- One row of the `FTAggregate` result (redis.go line 95): the
`max_timestamp` field of `Rows[0].Fields`, `none` modelling a nil value. -/
structure aggRow where
  max_timestamp : Option String
deriving DecidableEq

/-- Outcomes of the external Redis calls made by `initializeLatestData`
(redis.go lines 51-151): `createIndex` is `createIndexIfNotExists`
(line 52), `aggRows` the rows of the max-timestamp aggregation (line 75),
`searchAt ts` the documents returned by the `FTSearch` at timestamp `ts`
(line 114). -/
structure redisEnv where
  createIndex : Except String Unit
  aggRows : Except String (List aggRow)
  searchAt : Int → Except String (List Packet)

/-- Embeds `initializeLatestData` (redis.go lines 51-151): every failing
step — index creation error, aggregation error, zero rows, nil
`max_timestamp`, unparsable timestamp, search error — falls back to
`initEmptyLatest` and returns (no retry); on success the snapshot holds the
parsed max timestamp, the number of documents found, and the documents
themselves (the per-document loop of lines 130-138 copies each document's
field map verbatim). -/
def initLatestData (env : redisEnv) : latestData :=
  match env.createIndex with
  | Except.error _ => initEmptyLatest
  | Except.ok _ =>
    match env.aggRows with
    | Except.error _ => initEmptyLatest
    | Except.ok [] => initEmptyLatest
    | Except.ok (r :: _) =>
      match r.max_timestamp with
      | none => initEmptyLatest
      | some s =>
        match parseSscanfInt s with
        | none => initEmptyLatest
        | some ts =>
          match env.searchAt ts with
          | Except.error _ => initEmptyLatest
          | Except.ok docs =>
            { Timestamp := ts, PacketCount := (docs.length : Int), Packets := docs }

/-- Claim C6: every failure mode of startup reconstruction — index creation
error, aggregation error, zero result rows, nil max-timestamp, malformed
max-timestamp, search error — yields exactly the empty snapshot in a single
pass, and on success the snapshot's count is the number of records retrieved
at the maximum timestamp with the records themselves as the events. -/
theorem startup_fallback_and_success (env : redisEnv) :
    (∀ e, env.createIndex = Except.error e → initLatestData env = initEmptyLatest) ∧
    (∀ e, env.aggRows = Except.error e → initLatestData env = initEmptyLatest) ∧
    (env.aggRows = Except.ok [] → initLatestData env = initEmptyLatest) ∧
    (∀ r rest, env.aggRows = Except.ok (r :: rest) → r.max_timestamp = none →
      initLatestData env = initEmptyLatest) ∧
    (∀ r rest s, env.aggRows = Except.ok (r :: rest) → r.max_timestamp = some s →
      parseSscanfInt s = none → initLatestData env = initEmptyLatest) ∧
    (∀ r rest s ts e, env.aggRows = Except.ok (r :: rest) → r.max_timestamp = some s →
      parseSscanfInt s = some ts → env.searchAt ts = Except.error e →
      initLatestData env = initEmptyLatest) ∧
    (∀ r rest s ts docs, env.createIndex = Except.ok () →
      env.aggRows = Except.ok (r :: rest) → r.max_timestamp = some s →
      parseSscanfInt s = some ts → env.searchAt ts = Except.ok docs →
      initLatestData env =
        { Timestamp := ts, PacketCount := (docs.length : Int), Packets := docs }) := by
  refine ⟨?_, ?_, ?_, ?_, ?_, ?_, ?_⟩ <;>
    intros <;>
    unfold initLatestData <;>
    cases hci : env.createIndex <;>
    simp_all

/-- Witness for C6: a concrete environment whose index creation fails falls
back to the empty snapshot, and a concrete fully successful environment
(max timestamp "5", one document) produces the reconstructed snapshot. -/
theorem startup_fallback_and_success_witness :
    (redisEnv.mk (Except.error "boom") (Except.ok [])
        (fun _ => Except.ok [])).createIndex = Except.error "boom" ∧
    initLatestData
        (redisEnv.mk (Except.error "boom") (Except.ok []) (fun _ => Except.ok [])) =
      initEmptyLatest ∧
    parseSscanfInt "5" = some 5 ∧
    initLatestData
        (redisEnv.mk (Except.ok ()) (Except.ok [⟨some "5"⟩])
          (fun _ => Except.ok [[("total_bytes", "10")]])) =
      { Timestamp := 5, PacketCount := 1, Packets := [[("total_bytes", "10")]] } :=
  ⟨rfl,
    (startup_fallback_and_success
        (redisEnv.mk (Except.error "boom") (Except.ok []) (fun _ => Except.ok []))).1
      "boom" rfl,
    by decide,
    (startup_fallback_and_success
        (redisEnv.mk (Except.ok ()) (Except.ok [⟨some "5"⟩])
          (fun _ => Except.ok [[("total_bytes", "10")]]))).2.2.2.2.2.2
      ⟨some "5"⟩ [] "5" 5 [[("total_bytes", "10")]] rfl rfl rfl (by decide) rfl⟩

/-- Capacity of the `broadcast` channel: `make(chan string, 100)`
(types.go line 38). -/
def broadcastCap : Nat := 100

/-- Embeds a send on the buffered `broadcast` channel (`broadcast <-
msg.Payload`, redis.go line 185): when the buffer has room the payload is
appended at the tail; `none` models the sender blocking (the channel never
rejects or errors, it only waits). -/
def chanSend (cap : Nat) (q : List String) (p : String) : Option (List String) :=
  if q.length < cap then some (q ++ [p]) else none

/-- Embeds a receive from the buffered channel (`for msg := range broadcast`,
websocket.go line 19): the oldest buffered payload leaves the head; `none`
models the receiver blocking on an empty buffer. -/
def chanRecv (q : List String) : Option (String × List String) :=
  match q with
  | [] => none
  | x :: xs => some (x, xs)

/-- States of the channel buffer reachable from empty by completed sends and
receives. -/
inductive chanReach (cap : Nat) : List String → Prop
  | empty : chanReach cap []
  | send (q q2 : List String) (p : String) :
      chanReach cap q → chanSend cap q p = some q2 → chanReach cap q2
  | recv (q q2 : List String) (x : String) :
      chanReach cap q → chanRecv q = some (x, q2) → chanReach cap q2

/-- A sequence of sends with no intervening receive, each completing before
the next starts. -/
def sendAll (cap : Nat) (q : List String) : List String → Option (List String)
  | [] => some q
  | p :: ps =>
    match chanSend cap q p with
    | none => none
    | some q2 => sendAll cap q2 ps

theorem chanReach_length_le {cap : Nat} {q : List String}
    (h : chanReach cap q) : q.length ≤ cap := by
  induction h with
  | empty => exact Nat.zero_le cap
  | send q q2 p _ hsend _ =>
    unfold chanSend at hsend
    by_cases hlt : q.length < cap
    · rw [if_pos hlt] at hsend
      cases hsend
      simpa using hlt
    · rw [if_neg hlt] at hsend
      cases hsend
  | recv q q2 x _ hrecv ih =>
    unfold chanRecv at hrecv
    cases q with
    | nil => cases hrecv
    | cons y ys =>
      cases hrecv
      simp at ih
      omega

theorem sendAll_of_room (cap : Nat) (ps : List String) :
    ∀ q : List String, q.length + ps.length ≤ cap →
      sendAll cap q ps = some (q ++ ps) := by
  induction ps with
  | nil => intro q _; simp [sendAll]
  | cons p ps ih =>
    intro q hle
    unfold sendAll chanSend
    have hlt : q.length < cap := by
      simp at hle
      omega
    rw [if_pos hlt]
    have h2 : (q ++ [p]).length + ps.length ≤ cap := by
      simp at hle ⊢
      omega
    show sendAll cap (q ++ [p]) ps = some (q ++ p :: ps)
    rw [ih (q ++ [p]) h2]
    simp

/-- Claim C7: the broadcast channel is a bounded FIFO — every reachable
buffer state holds at most `cap` payloads, `cap` back-to-back sends from
empty all complete preserving arrival order, the `(cap+1)`-th send blocks
(`none`), yet completes as soon as one receive frees a slot; a send blocks
exactly when the buffer is full (never any other rejection or error), a
receive yields the oldest payload, and the code's capacity is 100. -/
theorem broadcast_backpressure (cap : Nat) (q ps : List String) (p : String)
    (hreach : chanReach cap q) (hfull : ps.length = cap) :
    q.length ≤ cap ∧
    sendAll cap [] ps = some ps ∧
    chanSend cap ps p = none ∧
    (∀ x q2, chanRecv ps = some (x, q2) → ∃ q3, chanSend cap q2 p = some q3) ∧
    (∀ (q' : List String) (p' : String),
      chanSend cap q' p' = none ↔ cap ≤ q'.length) ∧
    (∀ (x : String) (xs : List String), chanRecv (x :: xs) = some (x, xs)) ∧
    broadcastCap = 100 := by
  refine ⟨chanReach_length_le hreach, ?_, ?_, ?_, ?_, fun _ _ => rfl, rfl⟩
  · have := sendAll_of_room cap ps [] (by simpa using hfull.le)
    simpa using this
  · unfold chanSend
    rw [if_neg (by omega)]
  · intro x q2 hrecv
    unfold chanRecv at hrecv
    cases ps with
    | nil => cases hrecv
    | cons y ys =>
      cases hrecv
      refine ⟨q2 ++ [p], ?_⟩
      unfold chanSend
      rw [if_pos (by simp at hfull; omega)]
  · intro q' p'
    unfold chanSend
    by_cases hlt : q'.length < cap
    · rw [if_pos hlt]
      simp
      omega
    · rw [if_neg hlt]
      simp
      omega

/-- Witness for C7 at the spec's own scenario with capacity 2: the buffer
["a"] is reachable, sends of "a" then "b" from empty both complete, the
third send of "c" blocks, and after receiving "a" the blocked send of "c"
completes. -/
theorem broadcast_backpressure_witness :
    chanReach 2 ["a"] ∧ (["a", "b"] : List String).length = 2 ∧
    (["a"] : List String).length ≤ 2 ∧
    sendAll 2 [] ["a", "b"] = some ["a", "b"] ∧
    chanSend 2 ["a", "b"] "c" = none ∧
    (∃ q3, chanSend 2 ["b"] "c" = some q3) := by
  have hreach : chanReach 2 ["a"] :=
    chanReach.send [] ["a"] "a" chanReach.empty rfl
  have h := broadcast_backpressure 2 ["a"] ["a", "b"] "c" hreach rfl
  exact ⟨hreach, rfl, h.1, h.2.1, h.2.2.1, h.2.2.2.1 "a" ["b"] rfl⟩

end TrafficBackend
